import Mathlib

/-!
Shallow embedding of the reporting CLI in src/Untitled-1.py: a read-only tool
over a SQLite store of emotional check-ins ("emociones.db") that supports two
physical schemas (two-table: registro_emocional + emociones; one-table:
registros), fetches the latest record for a subject, lists a filtered history,
and exports CSV.

Modelling conventions:
  - the SQLite file is a `Store`: the catalog (table names) plus the contents
    of the three possible tables;
  - SQL TEXT comparison (BINARY collation) is `charListLt` on the character
    list of the string;
  - ORDER BY fecha DESC, turno DESC, id DESC is an insertion sort by the
    descending relation `rge`; LIMIT 1 is `List.head?`;
  - Python `str.strip` / `str.upper` are `pyStrip` / `pyUpper`;
  - a raised RuntimeError propagates as `Except.error`;
  - printed output is modelled as the list of printed lines.
-/

/-- Logical record shape returned by both queries, in SELECT column order:
(id, adulto, fecha, turno, emocion, estado, comentario). -/
structure Row where
  id : Nat
  adulto : String
  fecha : String
  turno : String
  emocion : String
  estado : String
  comentario : Option String
  deriving DecidableEq, Repr

/-- Physical row of the two-table fact table registro_emocional:
(id, adulto_id, fecha, turno, emocion_id, estado, comentario). -/
structure FactRow where
  id : Nat
  adulto_id : String
  fecha : String
  turno : String
  emocion_id : Nat
  estado : String
  comentario : Option String
  deriving DecidableEq, Repr

/-- A SQLite store: the catalog (sqlite_master table names) together with the
contents of the tables the program may read. Tables absent from `tables` are
never queried by the program, so their content fields are simply unused then. -/
structure Store where
  tables : List String
  registros : List Row
  registro_emocional : List FactRow
  emociones : List (Nat × String)
  deriving DecidableEq, Repr

/-- Discriminant returned by detect_schema: "dos_tablas" or "una_tabla". -/
inductive Schema where
  | dos_tablas
  | una_tabla
  deriving DecidableEq, Repr

/-- Characters removed at both ends by Python str.strip with no argument
(ASCII whitespace as relevant to this program). -/
def stripChars (l : List Char) : List Char :=
  ((l.dropWhile Char.isWhitespace).reverse.dropWhile Char.isWhitespace).reverse

/-- Embedding of Python str.strip(). -/
def pyStrip (s : String) : String := String.mk (stripChars s.data)

/-- Embedding of Python str.upper() (basic latin range, as used for M/T). -/
def pyUpper (s : String) : String := String.mk (s.data.map Char.toUpper)

/-- Embedding of has_table: does sqlite_master list a table of this name. -/
def has_table (db : Store) (name : String) : Bool := db.tables.contains name

/-- Embedding of detect_schema: prefers the two-table pair, then the single
table, and otherwise raises RuntimeError. -/
def detect_schema (db : Store) : Except String Schema :=
  if has_table db "registro_emocional" && has_table db "emociones" then
    Except.ok Schema.dos_tablas
  else if has_table db "registros" then
    Except.ok Schema.una_tabla
  else
    Except.error "No se reconocen tablas. Esperaba (registro_emocional+emociones) o (registros)."

instance {ε α : Type} [DecidableEq ε] [DecidableEq α] : DecidableEq (Except ε α) := fun x y =>
  match x, y with
  | Except.ok a, Except.ok b => decidable_of_iff (a = b) (by simp)
  | Except.ok _, Except.error _ => isFalse (by simp)
  | Except.error _, Except.ok _ => isFalse (by simp)
  | Except.error e, Except.error f => decidable_of_iff (e = f) (by simp)

/-- Strict lexicographic order on character lists: SQLite BINARY collation on
TEXT values, as used by the comparisons and ORDER BY of both queries. -/
def charListLt : List Char → List Char → Bool
  | [], [] => false
  | [], _ :: _ => true
  | _ :: _, [] => false
  | a :: as, b :: bs => decide (a < b) || (a == b && charListLt as bs)

/-- Strict BINARY-collation order on strings. -/
def strLt (a b : String) : Bool := charListLt a.data b.data

/-- Reflexive BINARY-collation order on strings, as in the SQL comparisons
fecha >= ? and fecha <= ?. -/
def strLe (a b : String) : Bool := !(strLt b a)

/-- Sort key of both queries: the (fecha, turno, id) triple of a row. -/
def key (r : Row) : String × String × Nat := (r.fecha, r.turno, r.id)

/-- Lexicographic (ascending) comparison of sort keys. -/
def kle (a b : String × String × Nat) : Bool :=
  strLt a.1 b.1 ||
    (a.1 == b.1 && (strLt a.2.1 b.2.1 || (a.2.1 == b.2.1 && decide (a.2.2 ≤ b.2.2))))

/-- Row relation of ORDER BY fecha DESC, turno DESC, id DESC: x comes no later
than y in the output iff the key of y is at most the key of x. -/
def rge (x y : Row) : Prop := kle (key y) (key x) = true

instance : DecidableRel rge := fun _ _ => inferInstanceAs (Decidable (_ = true))

/-- Result order of both queries: descending by (fecha, turno, id). -/
def sortRows (l : List Row) : List Row := List.insertionSort rge l

/-- Output of the two-table SELECT with JOIN emociones e ON e.id = r.emocion_id:
one logical row per fact row and matching emotion-lookup row, the looked-up
name in the emocion column and adulto_id in the adulto column. -/
def joinRows (db : Store) : List Row :=
  db.registro_emocional.flatMap fun r =>
    (db.emociones.filter fun e => e.1 == r.emocion_id).map fun e =>
      { id := r.id, adulto := r.adulto_id, fecha := r.fecha, turno := r.turno,
        emocion := e.2, estado := r.estado, comentario := r.comentario }

/-- Row source selected by the schema discriminant: the joined two tables or
the single denormalized table. -/
def baseRows (db : Store) : Schema → List Row
  | Schema.dos_tablas => joinRows db
  | Schema.una_tabla => db.registros

/-- Embedding of fetch_ultimo: detect the schema, select rows of the (stripped)
subject, ORDER BY (fecha, turno, id) DESC, LIMIT 1. -/
def fetch_ultimo (db : Store) (adulto : String) : Except String (Option Row) := do
  let schema ← detect_schema db
  pure (sortRows ((baseRows db schema).filter fun r => r.adulto == pyStrip adulto)).head?

/-- WHERE clause built by fetch_historial: the subject clause always, then one
clause per truthy (non-None, non-empty) filter — fecha >= desde, fecha <= hasta,
turno = turno.strip().upper(). -/
def historialPred (adulto : String) (desde hasta turno : Option String) (r : Row) : Bool :=
  (r.adulto == pyStrip adulto) &&
  (match desde with
   | none => true
   | some d => if d.isEmpty then true else strLe d r.fecha) &&
  (match hasta with
   | none => true
   | some h => if h.isEmpty then true else strLe r.fecha h) &&
  (match turno with
   | none => true
   | some t => if t.isEmpty then true else r.turno == pyUpper (pyStrip t))

/-- Embedding of fetch_historial: detect the schema, filter by the built WHERE
clause, ORDER BY (fecha, turno, id) DESC. -/
def fetch_historial (db : Store) (adulto : String)
    (desde hasta turno : Option String) : Except String (List Row) := do
  let schema ← detect_schema db
  pure (sortRows ((baseRows db schema).filter (historialPred adulto desde hasta turno)))

/-- Pad on the left with spaces to width n (Python format spec >n). -/
def padLeft (s : String) (n : Nat) : String :=
  String.mk (List.replicate (n - s.length) ' ') ++ s

/-- Pad on the right with spaces to width n (Python format spec <n). -/
def padRight (s : String) (n : Nat) : String :=
  s ++ String.mk (List.replicate (n - s.length) ' ')

/-- Truncate to n characters then pad to width n (Python format spec <n.n). -/
def truncPad (s : String) (n : Nat) : String := padRight (String.mk (s.data.take n)) n

/-- Python str() of an optional comment as interpolated into the table row:
None prints as "None". -/
def pyStr : Option String → String
  | none => "None"
  | some c => c

/-- Embedding of print_uno: the lines printed for an optional row; a missing
row prints the explicit no-records message. -/
def print_uno (row : Option Row) : List String :=
  match row with
  | none => ["No hay registros para ese adulto."]
  | some r =>
    ["", "Último registro",
     String.mk (List.replicate 60 '-'),
     "ID:        " ++ toString r.id,
     "Adulto:    " ++ r.adulto,
     "Fecha:     " ++ r.fecha ++ "   Turno: " ++ r.turno,
     "Emoción:   " ++ r.emocion ++ "   Estado: " ++ r.estado,
     "Comentario:" ++ (match r.comentario with
                       | none => ""
                       | some c => if c.isEmpty then "" else " " ++ c)]

/-- Formatted table line of one row in print_tabla. -/
def tablaLine (r : Row) : String :=
  padLeft (toString r.id) 3 ++ " " ++ truncPad r.adulto 10 ++ " " ++
    padRight r.fecha 10 ++ " " ++ padRight r.turno 3 ++ " " ++
    truncPad r.emocion 14 ++ " " ++ padRight r.estado 3 ++ "  " ++ pyStr r.comentario

/-- Embedding of print_tabla: the lines printed for a row list; an empty list
prints the explicit no-records message. -/
def print_tabla (rows : List Row) : List String :=
  if rows.isEmpty then
    ["No hay registros."]
  else
    (padLeft "ID" 3 ++ " " ++ padRight "Adulto" 10 ++ " " ++ padRight "Fecha" 10 ++ " " ++
       padRight "Trn" 3 ++ " " ++ padRight "Emoción" 14 ++ " " ++ padRight "Est" 3 ++
       "  Comentario") ::
    String.mk (List.replicate 90 '-') ::
    rows.map tablaLine

/-- Quote a CSV field as Python csv.writer does with the default dialect
(QUOTE_MINIMAL): quote iff the field holds the delimiter, the quote char or a
line-terminator char, doubling embedded quote chars. -/
def csvField (s : String) : String :=
  if s.data.any (fun c => c == ',' || c == '"' || c == '\r' || c == '\n') then
    "\"" ++ String.mk (s.data.flatMap fun c => if c == '"' then ['"', '"'] else [c]) ++ "\""
  else s

/-- CSV cells of one record, in column order; a None comment is written as an
empty field by csv.writer. -/
def rowCells (r : Row) : List String :=
  [toString r.id, r.adulto, r.fecha, r.turno, r.emocion, r.estado, r.comentario.getD ""]

/-- One CSV line from its cells. -/
def csvLine (cells : List String) : String := String.intercalate "," (cells.map csvField)

/-- Embedding of export_csv: the lines written to the output file — the header
row, then one row per record in input order. -/
def export_csv (rows : List Row) : List String :=
  csvLine ["id", "adulto", "fecha", "turno", "emocion", "estado", "comentario"] ::
    rows.map fun r => csvLine (rowCells r)

/-- CLI subcommands after argument parsing. -/
inductive Cmd where
  | actual (adulto : String)
  | historial (adulto : String) (desde hasta turno : Option String) (csv : Bool)
  | menu
  deriving DecidableEq, Repr

/-- Embedding of run_menu over a script of input lines; exhausting the input
raises (EOFError from input()), and each query branch propagates store errors. -/
def run_menu (db : Store) : List String → Except String Unit
  | [] => Except.error "EOF when reading a line"
  | op :: rest =>
    if pyStrip op == "0" then Except.ok ()
    else if pyStrip op == "1" then
      match rest with
      | [] => Except.error "EOF when reading a line"
      | a :: rest2 => do
        let _ ← fetch_ultimo db (pyStrip a)
        run_menu db rest2
    else if pyStrip op == "2" then
      match rest with
      | a :: d :: h :: t :: rest2 => do
        let desde := if (pyStrip d).isEmpty then none else some (pyStrip d)
        let hasta := if (pyStrip h).isEmpty then none else some (pyStrip h)
        let turno := if (pyUpper (pyStrip t)).isEmpty then none else some (pyUpper (pyStrip t))
        let _ ← fetch_historial db (pyStrip a) desde hasta turno
        run_menu db rest2
      | _ => Except.error "EOF when reading a line"
    else run_menu db rest

/-- Body of the try block of main: dispatch on the parsed subcommand (quick
mode reads the subject from input, menu runs the interactive loop). -/
def mainDispatch (db : Store) (cmd : Option Cmd) (quickInput : String)
    (script : List String) : Except String Unit :=
  match cmd with
  | none => do
    let _ ← fetch_ultimo db (pyStrip quickInput)
    Except.ok ()
  | some Cmd.menu => run_menu db script
  | some (Cmd.actual a) => do
    let _ ← fetch_ultimo db a
    Except.ok ()
  | some (Cmd.historial a d h t _) => do
    let _ ← fetch_historial db a d h t
    Except.ok ()

/-- Embedding of main: the exit code together with the error line printed by
the top-level except handler, if any. -/
def mainRun (db : Store) (cmd : Option Cmd) (quickInput : String)
    (script : List String) : Nat × Option String :=
  match mainDispatch db cmd quickInput script with
  | Except.ok _ => (0, none)
  | Except.error e => (1, some ("⚠️ Error: " ++ e))

/-! Order properties of the BINARY-collation comparison and the sort key. -/

theorem charListLt_trichotomy (as bs : List Char) :
    charListLt as bs = true ∨ as = bs ∨ charListLt bs as = true := by
  induction as generalizing bs with
  | nil =>
    cases bs with
    | nil => exact Or.inr (Or.inl rfl)
    | cons b bs => exact Or.inl rfl
  | cons a as ih =>
    cases bs with
    | nil => exact Or.inr (Or.inr rfl)
    | cons b bs =>
      rcases lt_trichotomy a b with h | h | h
      · left; simp [charListLt, h]
      · subst h
        rcases ih bs with h2 | h2 | h2
        · left; simp [charListLt, h2]
        · exact Or.inr (Or.inl (by rw [h2]))
        · right; right; simp [charListLt, h2]
      · right; right; simp [charListLt, h]

theorem charListLt_trans {as bs cs : List Char} (h1 : charListLt as bs = true)
    (h2 : charListLt bs cs = true) : charListLt as cs = true := by
  induction as generalizing bs cs with
  | nil =>
    cases cs with
    | nil =>
      cases bs with
      | nil => simp [charListLt] at h1
      | cons b bs => simp [charListLt] at h2
    | cons c cs => rfl
  | cons a as ih =>
    cases bs with
    | nil => simp [charListLt] at h1
    | cons b bs =>
      cases cs with
      | nil => simp [charListLt] at h2
      | cons c cs =>
        simp only [charListLt, Bool.or_eq_true, Bool.and_eq_true, decide_eq_true_eq,
          beq_iff_eq] at h1 h2 ⊢
        rcases h1 with h1 | ⟨e1, h1⟩
        · rcases h2 with h2 | ⟨e2, _⟩
          · exact Or.inl (h1.trans h2)
          · exact Or.inl (e2 ▸ h1)
        · rcases h2 with h2 | ⟨e2, h2⟩
          · exact Or.inl (lt_of_eq_of_lt e1 h2)
          · exact Or.inr ⟨e1.trans e2, ih h1 h2⟩

theorem strLt_trichotomy (a b : String) : strLt a b = true ∨ a = b ∨ strLt b a = true := by
  rcases charListLt_trichotomy a.data b.data with h | h | h
  · exact Or.inl h
  · refine Or.inr (Or.inl ?_)
    exact congrArg String.mk h
  · exact Or.inr (Or.inr h)

theorem strLt_trans {a b c : String} (h1 : strLt a b = true) (h2 : strLt b c = true) :
    strLt a c = true := charListLt_trans h1 h2

theorem kle_refl (a : String × String × Nat) : kle a a = true := by
  simp [kle]

theorem kle_total (a b : String × String × Nat) : kle a b = true ∨ kle b a = true := by
  simp only [kle, Bool.or_eq_true, Bool.and_eq_true, decide_eq_true_eq, beq_iff_eq]
  rcases strLt_trichotomy a.1 b.1 with h | h | h
  · exact Or.inl (Or.inl h)
  · rcases strLt_trichotomy a.2.1 b.2.1 with h2 | h2 | h2
    · exact Or.inl (Or.inr ⟨h, Or.inl h2⟩)
    · rcases Nat.le_total a.2.2 b.2.2 with h3 | h3
      · exact Or.inl (Or.inr ⟨h, Or.inr ⟨h2, h3⟩⟩)
      · exact Or.inr (Or.inr ⟨h.symm, Or.inr ⟨h2.symm, h3⟩⟩)
    · exact Or.inr (Or.inr ⟨h.symm, Or.inl h2⟩)
  · exact Or.inr (Or.inl h)

theorem kle_trans {a b c : String × String × Nat} (h1 : kle a b = true)
    (h2 : kle b c = true) : kle a c = true := by
  simp only [kle, Bool.or_eq_true, Bool.and_eq_true, decide_eq_true_eq, beq_iff_eq] at h1 h2 ⊢
  rcases h1 with h1 | ⟨e1, h1⟩
  · rcases h2 with h2 | ⟨e2, _⟩
    · exact Or.inl (strLt_trans h1 h2)
    · exact Or.inl (e2 ▸ h1)
  · rcases h2 with h2 | ⟨e2, h2⟩
    · exact Or.inl (e1 ▸ h2)
    · refine Or.inr ⟨e1.trans e2, ?_⟩
      rcases h1 with h1 | ⟨f1, h1⟩
      · rcases h2 with h2 | ⟨f2, _⟩
        · exact Or.inl (strLt_trans h1 h2)
        · exact Or.inl (f2 ▸ h1)
      · rcases h2 with h2 | ⟨f2, h2⟩
        · exact Or.inl (f1 ▸ h2)
        · exact Or.inr ⟨f1.trans f2, h1.trans h2⟩

instance : IsTotal Row rge :=
  ⟨fun x y => (kle_total (key y) (key x)).imp id id⟩

instance : IsTrans Row rge :=
  ⟨fun _ _ _ h1 h2 => kle_trans h2 h1⟩

theorem sortRows_perm (l : List Row) : (sortRows l).Perm l := List.perm_insertionSort rge l

theorem sortRows_sorted (l : List Row) : List.Sorted rge (sortRows l) :=
  List.sorted_insertionSort rge l

theorem sorted_head_max {l : List Row} (hs : List.Sorted rge l) {a : Row}
    (ha : l.head? = some a) : ∀ r ∈ l, rge a r := by
  cases l with
  | nil => cases ha
  | cons x xs =>
    cases ha
    intro r hr
    rcases List.mem_cons.mp hr with rfl | hr
    · exact kle_refl _
    · exact (List.sorted_cons.mp hs).1 r hr

/-! Properties of the str.upper / str.strip embeddings. -/

theorem char_toUpper_eq (c : Char) :
    c.toUpper = if c.toNat ≥ 97 ∧ c.toNat ≤ 122 then Char.ofNat (c.toNat - 32) else c := rfl

theorem toUpper_shift (n : Nat) (h1 : 97 ≤ n) (h2 : n ≤ 122) :
    (Char.ofNat (n - 32)).toUpper = Char.ofNat (n - 32) ∧
      (Char.ofNat (n - 32)).isWhitespace = false := by
  interval_cases n <;> exact ⟨by decide, by decide⟩

theorem char_ws_of_ge (c : Char) (h : 97 ≤ c.toNat) : c.isWhitespace = false := by
  have w1 : ¬(c = ' ') := fun e => absurd (e ▸ h) (by decide)
  have w2 : ¬(c = '\t') := fun e => absurd (e ▸ h) (by decide)
  have w3 : ¬(c = '\r') := fun e => absurd (e ▸ h) (by decide)
  have w4 : ¬(c = '\n') := fun e => absurd (e ▸ h) (by decide)
  simp [Char.isWhitespace, w1, w2, w3, w4]

theorem upper_idem_char (c : Char) : c.toUpper.toUpper = c.toUpper := by
  rw [char_toUpper_eq c]
  by_cases h : c.toNat ≥ 97 ∧ c.toNat ≤ 122
  · rw [if_pos h]
    exact (toUpper_shift c.toNat h.1 h.2).1
  · rw [if_neg h, char_toUpper_eq c, if_neg h]

theorem ws_upper_char (c : Char) : c.toUpper.isWhitespace = c.isWhitespace := by
  rw [char_toUpper_eq c]
  by_cases h : c.toNat ≥ 97 ∧ c.toNat ≤ 122
  · rw [if_pos h, (toUpper_shift c.toNat h.1 h.2).2, char_ws_of_ge c h.1]
  · rw [if_neg h]

theorem stripChars_map_upper (l : List Char) :
    stripChars (l.map Char.toUpper) = (stripChars l).map Char.toUpper := by
  have hws : (Char.isWhitespace ∘ Char.toUpper) = Char.isWhitespace := funext ws_upper_char
  unfold stripChars
  rw [List.dropWhile_map, hws, ← List.map_reverse, List.dropWhile_map, hws, ← List.map_reverse]

theorem pyUpper_pyStrip_pyUpper (t : String) :
    pyUpper (pyStrip (pyUpper t)) = pyUpper (pyStrip t) := by
  have hup : Char.toUpper ∘ Char.toUpper = Char.toUpper := funext fun c => upper_idem_char c
  show String.mk ((stripChars (t.data.map Char.toUpper)).map Char.toUpper) =
    String.mk ((stripChars t.data).map Char.toUpper)
  rw [stripChars_map_upper, List.map_map, hup]

theorem pyUpper_eq_empty {t : String} (h : pyUpper t = "") : t = "" := by
  have h2 : t.data.map Char.toUpper = [] := congrArg String.data h
  exact congrArg String.mk (List.map_eq_nil_iff.mp h2)

/-! Unfolding lemmas for the two queries. -/

theorem fetch_ultimo_eq (db : Store) (adulto : String) {s : Schema}
    (hs : detect_schema db = Except.ok s) :
    fetch_ultimo db adulto =
      Except.ok (sortRows ((baseRows db s).filter fun r =>
        r.adulto == pyStrip adulto)).head? := by
  unfold fetch_ultimo
  rw [hs]
  rfl

theorem fetch_ultimo_err (db : Store) (adulto : String) {e : String}
    (hs : detect_schema db = Except.error e) :
    fetch_ultimo db adulto = Except.error e := by
  unfold fetch_ultimo
  rw [hs]
  rfl

theorem fetch_historial_eq (db : Store) (adulto : String) (desde hasta turno : Option String)
    {s : Schema} (hs : detect_schema db = Except.ok s) :
    fetch_historial db adulto desde hasta turno =
      Except.ok (sortRows ((baseRows db s).filter
        (historialPred adulto desde hasta turno))) := by
  unfold fetch_historial
  rw [hs]
  rfl

theorem fetch_historial_err (db : Store) (adulto : String) (desde hasta turno : Option String)
    {e : String} (hs : detect_schema db = Except.error e) :
    fetch_historial db adulto desde hasta turno = Except.error e := by
  unfold fetch_historial
  rw [hs]
  rfl

/-- Rows of the store (under a detected schema) matching a subject, before
ordering: the WHERE clause of fetch_ultimo. -/
def matching (db : Store) (s : Schema) (adulto : String) : List Row :=
  (baseRows db s).filter fun r => r.adulto == pyStrip adulto

/-! Concrete stores used as witnesses and counterexamples. -/

/-- Spec example row: subject Maria on 2024-01-01, shift M. -/
def mariaRow1 : Row :=
  { id := 1, adulto := "Maria", fecha := "2024-01-01", turno := "M",
    emocion := "alegria", estado := "BIEN", comentario := some "paseo" }

/-- Spec example row: subject Maria on 2024-01-02, shift T. -/
def mariaRow2 : Row :=
  { id := 2, adulto := "Maria", fecha := "2024-01-02", turno := "T",
    emocion := "calma", estado := "BIEN", comentario := none }

/-- One-table store of the spec example for subject Maria. -/
def mariaStore : Store :=
  { tables := ["registros"], registros := [mariaRow1, mariaRow2],
    registro_emocional := [], emociones := [] }

/-- Store whose catalog holds both physical forms at once. -/
def bothStore : Store :=
  { tables := ["registro_emocional", "emociones", "registros"], registros := [],
    registro_emocional := [], emociones := [] }

/-- Store with no recognized table. -/
def emptyStore : Store :=
  { tables := [], registros := [], registro_emocional := [], emociones := [] }

/-! Small helpers for the claim proofs. -/

theorem mem_of_head?_eq_some {α : Type} {l : List α} {a : α} (h : l.head? = some a) :
    a ∈ l := by
  cases l with
  | nil => cases h
  | cons x xs =>
    cases h
    exact List.mem_cons_self _ _

theorem isEmpty_false_of_ne {s : String} (h : s ≠ "") : s.isEmpty = false := by
  cases hb : s.isEmpty with
  | false => rfl
  | true => exact absurd ((String.isEmpty_iff s).mp hb) h

theorem fetch_ultimo_eq_matching (db : Store) (adulto : String) {s : Schema}
    (hs : detect_schema db = Except.ok s) :
    fetch_ultimo db adulto = Except.ok (sortRows (matching db s adulto)).head? :=
  fetch_ultimo_eq db adulto hs

/-- C1: for every subject, fetch_ultimo returns none exactly when no row matches
the trimmed subject; any returned row matches the subject and its
(fecha, turno, id) key is lexicographically maximum among the matching rows —
and a matching row strictly above every other matching row is the one returned;
in particular, on the one-table store with Maria rows on 2024-01-01/M and
2024-01-02/T, fetch_ultimo returns the 2024-01-02/T row. -/
theorem C1_latest_is_max :
    (∀ (db : Store) (adulto : String) (s : Schema), detect_schema db = Except.ok s →
      (fetch_ultimo db adulto = Except.ok none ↔ matching db s adulto = []) ∧
      (∀ r, fetch_ultimo db adulto = Except.ok (some r) →
        r ∈ matching db s adulto ∧
          ∀ q ∈ matching db s adulto, kle (key q) (key r) = true) ∧
      (∀ r, r ∈ matching db s adulto →
        (∀ q ∈ matching db s adulto, q ≠ r → kle (key r) (key q) = false) →
        fetch_ultimo db adulto = Except.ok (some r))) ∧
    fetch_ultimo mariaStore "Maria" = Except.ok (some mariaRow2) := by
  constructor
  · intro db adulto s hs
    refine ⟨?_, ?_, ?_⟩
    · rw [fetch_ultimo_eq_matching db adulto hs]
      constructor
      · intro h
        simp only [Except.ok.injEq] at h
        have h0 : sortRows (matching db s adulto) = [] := List.head?_eq_none_iff.mp h
        exact (h0 ▸ sortRows_perm (matching db s adulto)).symm.eq_nil
      · intro h
        rw [h]
        rfl
    · intro r h
      rw [fetch_ultimo_eq_matching db adulto hs] at h
      simp only [Except.ok.injEq] at h
      have hmem : r ∈ sortRows (matching db s adulto) := mem_of_head?_eq_some h
      refine ⟨(sortRows_perm _).mem_iff.mp hmem, ?_⟩
      intro q hq
      exact sorted_head_max (sortRows_sorted _) h q ((sortRows_perm _).mem_iff.mpr hq)
    · intro r hr hmax
      rw [fetch_ultimo_eq_matching db adulto hs]
      cases hsl : sortRows (matching db s adulto) with
      | nil =>
        have h0 : matching db s adulto = [] :=
          (hsl ▸ sortRows_perm (matching db s adulto)).symm.eq_nil
        rw [h0] at hr
        cases hr
      | cons x xs =>
        have hxhead : (sortRows (matching db s adulto)).head? = some x := by
          rw [hsl]
          rfl
        have hxmem : x ∈ matching db s adulto :=
          (sortRows_perm _).mem_iff.mp (mem_of_head?_eq_some hxhead)
        simp only [List.head?_cons]
        by_cases e : x = r
        · rw [e]
        · have h1 := hmax x hxmem e
          have h2 : kle (key r) (key x) = true :=
            sorted_head_max (sortRows_sorted _) hxhead r ((sortRows_perm _).mem_iff.mpr hr)
          rw [h1] at h2
          exact absurd h2 Bool.false_ne_true
  · decide

/-- Witness for C1 at the Maria store: the matching rows are nonempty and the
returned row is a key-maximum among them. -/
theorem C1_witness :
    detect_schema mariaStore = Except.ok Schema.una_tabla ∧
      (fetch_ultimo mariaStore "Maria" = Except.ok none ↔
        matching mariaStore Schema.una_tabla "Maria" = []) :=
  ⟨by decide, (C1_latest_is_max.1 mariaStore "Maria" Schema.una_tabla (by decide)).1⟩

/-- Spec-side history filter for the C2 refinement, following the spec's words:
a row matches when it carries the (trimmed) subject and its date lies within
the supplied inclusive bounds; an omitted bound imposes no constraint. -/
def specHistoryPred (adulto : String) (desde hasta : Option String) (r : Row) : Bool :=
  (r.adulto == pyStrip adulto) &&
  (match desde with
   | none => true
   | some d => strLe d r.fecha) &&
  (match hasta with
   | none => true
   | some b => strLe r.fecha b)

/-- C2: for every subject and optional non-empty-string bounds, the history with
no shift filter is sorted descending by (fecha, turno, id) and is a permutation
of exactly the matching rows whose date lies within the supplied inclusive
bounds, an omitted bound imposing no constraint. -/
theorem C2_history_bounds (db : Store) (s : Schema) (adulto : String)
    (desde hasta : Option String) (hs : detect_schema db = Except.ok s)
    (hd : desde ≠ some "") (hh : hasta ≠ some "") (out : List Row)
    (h : fetch_historial db adulto desde hasta none = Except.ok out) :
    List.Sorted rge out ∧
      out.Perm ((baseRows db s).filter (specHistoryPred adulto desde hasta)) := by
  rw [fetch_historial_eq db adulto desde hasta none hs] at h
  simp only [Except.ok.injEq] at h
  subst h
  refine ⟨sortRows_sorted _, (sortRows_perm _).trans ?_⟩
  have hcong : ∀ r ∈ baseRows db s,
      historialPred adulto desde hasta none r = specHistoryPred adulto desde hasta r := by
    intro r _
    unfold historialPred specHistoryPred
    cases desde with
    | none =>
      cases hasta with
      | none => simp
      | some b =>
        have hbe : b.isEmpty = false := isEmpty_false_of_ne fun e => hh (congrArg some e)
        simp [hbe]
    | some d =>
      have hde : d.isEmpty = false := isEmpty_false_of_ne fun e => hd (congrArg some e)
      cases hasta with
      | none => simp [hde]
      | some b =>
        have hbe : b.isEmpty = false := isEmpty_false_of_ne fun e => hh (congrArg some e)
        simp [hde, hbe]
  rw [List.filter_congr hcong]

/-- Witness for C2 at the Maria store with a lower bound: the result is the
2024-01-02 row alone, sorted and a permutation of the filtered rows. -/
theorem C2_witness :
    List.Sorted rge [mariaRow2] ∧
      List.Perm [mariaRow2] ((baseRows mariaStore Schema.una_tabla).filter
        (specHistoryPred "Maria" (some "2024-01-02") none)) :=
  C2_history_bounds mariaStore Schema.una_tabla "Maria" (some "2024-01-02") none
    (by decide) (by decide) (by decide) [mariaRow2] (by decide)

/-- C3: detection returns the two-table discriminant when the pair is present,
the one-table discriminant when only the single table is present, and the
no-recognized-schema error when neither pattern is present. -/
theorem C3_detect_schema (db : Store) :
    ("registro_emocional" ∈ db.tables → "emociones" ∈ db.tables →
      detect_schema db = Except.ok Schema.dos_tablas) ∧
    (("registro_emocional" ∉ db.tables ∨ "emociones" ∉ db.tables) →
      "registros" ∈ db.tables → detect_schema db = Except.ok Schema.una_tabla) ∧
    (("registro_emocional" ∉ db.tables ∨ "emociones" ∉ db.tables) →
      "registros" ∉ db.tables →
      detect_schema db = Except.error
        "No se reconocen tablas. Esperaba (registro_emocional+emociones) o (registros).") := by
  refine ⟨?_, ?_, ?_⟩
  · intro h1 h2
    simp [detect_schema, has_table, List.contains, h1, h2]
  · intro h0 h2
    rcases h0 with h0 | h0 <;> simp [detect_schema, has_table, List.contains, h0, h2]
  · intro h0 h2
    rcases h0 with h0 | h0 <;> simp [detect_schema, has_table, List.contains, h0, h2]

/-- Witness for C3 at the three concrete stores of each shape. -/
theorem C3_witness :
    detect_schema bothStore = Except.ok Schema.dos_tablas ∧
      detect_schema mariaStore = Except.ok Schema.una_tabla ∧
      detect_schema emptyStore = Except.error
        "No se reconocen tablas. Esperaba (registro_emocional+emociones) o (registros)." :=
  ⟨(C3_detect_schema bothStore).1 (by decide) (by decide),
    (C3_detect_schema mariaStore).2.1 (Or.inl (by decide)) (by decide),
    (C3_detect_schema emptyStore).2.2 (Or.inl (by decide)) (by decide)⟩

/-- C4 counterexample: on a store whose catalog holds both physical forms,
detection does not fail — it returns the two-table discriminant. -/
theorem C4_counterexample :
    detect_schema bothStore = Except.ok Schema.dos_tablas ∧
      ∀ e, detect_schema bothStore ≠ Except.error e := by
  refine ⟨by decide, ?_⟩
  intro e h
  have hok : detect_schema bothStore = Except.ok Schema.dos_tablas := by decide
  rw [hok] at h
  exact Except.noConfusion h

/-- C4 amended: when both physical forms are present at once, detection does
not fail; the two-table form takes precedence and the two-table discriminant
is returned. -/
theorem C4_both_prefers_dos_tablas (db : Store)
    (h1 : "registro_emocional" ∈ db.tables) (h2 : "emociones" ∈ db.tables)
    (_h3 : "registros" ∈ db.tables) :
    detect_schema db = Except.ok Schema.dos_tablas := by
  simp [detect_schema, has_table, List.contains, h1, h2]

/-- Witness for the amended C4 at the store holding all three tables. -/
theorem C4_witness : detect_schema bothStore = Except.ok Schema.dos_tablas :=
  C4_both_prefers_dos_tablas bothStore (by decide) (by decide) (by decide)

/-- C5: CSV export writes the header row followed by exactly one CSV row per
record, in input order, with standard CSV quoting applied per field. -/
theorem C5_export_csv (rows : List Row) :
    export_csv rows =
      "id,adulto,fecha,turno,emocion,estado,comentario" ::
        rows.map (fun r => csvLine (rowCells r)) ∧
    (export_csv rows).length = rows.length + 1 := by
  constructor
  · unfold export_csv
    congr 1
  · simp [export_csv]

/-- C6: main returns exit code 0 when the dispatched work succeeds and exit
code 1 on any error, the error printed with the warning prefix; every run ends
in one of these two outcomes. -/
theorem C6_main_exit_codes (db : Store) (cmd : Option Cmd) (qi : String)
    (script : List String) :
    (mainDispatch db cmd qi script = Except.ok () → mainRun db cmd qi script = (0, none)) ∧
    (∀ e, mainDispatch db cmd qi script = Except.error e →
      mainRun db cmd qi script = (1, some ("⚠️ Error: " ++ e))) ∧
    ((mainRun db cmd qi script).1 = 0 ∧ (mainRun db cmd qi script).2 = none ∨
      ∃ e, (mainRun db cmd qi script).1 = 1 ∧
        (mainRun db cmd qi script).2 = some ("⚠️ Error: " ++ e)) := by
  unfold mainRun
  cases h : mainDispatch db cmd qi script with
  | ok u =>
    cases u
    exact ⟨fun _ => rfl, fun e he => Except.noConfusion he, Or.inl ⟨rfl, rfl⟩⟩
  | error e =>
    refine ⟨fun ho => Except.noConfusion ho, fun f hf => ?_, Or.inr ⟨e, rfl, rfl⟩⟩
    injection hf with hef
    rw [hef]

/-- Witness for C6: on the store with no recognized table the actual subcommand
exits 1 with the prefixed schema error; on the Maria store it exits 0. -/
theorem C6_witness :
    mainRun emptyStore (some (Cmd.actual "Maria")) "" [] =
      (1, some ("⚠️ Error: " ++
        "No se reconocen tablas. Esperaba (registro_emocional+emociones) o (registros).")) ∧
    mainRun mariaStore (some (Cmd.actual "Maria")) "" [] = (0, none) :=
  ⟨(C6_main_exit_codes emptyStore (some (Cmd.actual "Maria")) "" []).2.1 _ (by decide),
    (C6_main_exit_codes mariaStore (some (Cmd.actual "Maria")) "" []).1 (by decide)⟩

/-- C7: for every non-empty shift filter, history is unchanged when the filter
is replaced by its uppercase form, and every returned row carries the
normalized (stripped, uppercased) shift. -/
theorem C7_turno_case (db : Store) (adulto : String) (desde hasta : Option String)
    (t : String) (ht : t ≠ "") :
    fetch_historial db adulto desde hasta (some t) =
      fetch_historial db adulto desde hasta (some (pyUpper t)) ∧
    ∀ out, fetch_historial db adulto desde hasta (some t) = Except.ok out →
      ∀ r ∈ out, r.turno = pyUpper (pyStrip t) := by
  have hte : t.isEmpty = false := isEmpty_false_of_ne ht
  have htu : (pyUpper t).isEmpty = false :=
    isEmpty_false_of_ne fun e => ht (pyUpper_eq_empty e)
  have hpred : historialPred adulto desde hasta (some t) =
      historialPred adulto desde hasta (some (pyUpper t)) := by
    funext r
    unfold historialPred
    simp [hte, htu, pyUpper_pyStrip_pyUpper]
  constructor
  · unfold fetch_historial
    rw [hpred]
  · intro out h r hr
    cases hs : detect_schema db with
    | error e =>
      rw [fetch_historial_err db adulto desde hasta (some t) hs] at h
      exact Except.noConfusion h
    | ok s =>
      rw [fetch_historial_eq db adulto desde hasta (some t) hs] at h
      simp only [Except.ok.injEq] at h
      subst h
      have hr2 : r ∈ (baseRows db s).filter (historialPred adulto desde hasta (some t)) :=
        (sortRows_perm _).mem_iff.mp hr
      have hp := List.of_mem_filter hr2
      simp only [historialPred, hte, Bool.false_eq_true, if_false, Bool.and_eq_true,
        beq_iff_eq] at hp
      exact hp.2

/-- Witness for C7 on the Maria store with the lowercase filter m: the query
equals the uppercase-filter query, and the returned row carries shift M. -/
theorem C7_witness :
    fetch_historial mariaStore "Maria" none none (some "m") =
      fetch_historial mariaStore "Maria" none none (some (pyUpper "m")) ∧
    mariaRow1.turno = pyUpper (pyStrip "m") :=
  ⟨(C7_turno_case mariaStore "Maria" none none "m" (by decide)).1,
    (C7_turno_case mariaStore "Maria" none none "m" (by decide)).2
      [mariaRow1] (by decide) mariaRow1 (by decide)⟩

/-- C8: an empty result prints the explicit no-records message in both
presenters — the single-record detail view and the tabular listing — rather
than an empty detail view or an empty table. -/
theorem C8_empty_messages :
    print_uno none = ["No hay registros para ese adulto."] ∧
    print_tabla [] = ["No hay registros."] :=
  ⟨rfl, rfl⟩

/-- C9: for every subject, fetch_ultimo is exactly the head of the unfiltered
fetch_historial result (errors propagating identically), and it returns none
precisely when that history is empty. -/
theorem C9_latest_head_history (db : Store) (adulto : String) :
    fetch_ultimo db adulto = (fetch_historial db adulto none none none).map List.head? ∧
    ∀ out, fetch_historial db adulto none none none = Except.ok out →
      (fetch_ultimo db adulto = Except.ok none ↔ out = []) := by
  have hpred : historialPred adulto none none none = fun r => r.adulto == pyStrip adulto := by
    funext r
    simp [historialPred]
  constructor
  · cases hs : detect_schema db with
    | error e =>
      rw [fetch_ultimo_err db adulto hs, fetch_historial_err db adulto none none none hs]
      rfl
    | ok s =>
      rw [fetch_ultimo_eq db adulto hs, fetch_historial_eq db adulto none none none hs, hpred]
      rfl
  · intro out h
    cases hs : detect_schema db with
    | error e =>
      rw [fetch_historial_err db adulto none none none hs] at h
      exact Except.noConfusion h
    | ok s =>
      rw [fetch_historial_eq db adulto none none none hs] at h
      simp only [Except.ok.injEq] at h
      subst h
      rw [fetch_ultimo_eq db adulto hs, hpred]
      simp only [Except.ok.injEq, List.head?_eq_none_iff]

/-- Witness for C9 on the Maria store: the unfiltered history is the two rows
newest first, and fetch_ultimo is none exactly when that list is empty. -/
theorem C9_witness :
    fetch_historial mariaStore "Maria" none none none =
      Except.ok [mariaRow2, mariaRow1] ∧
    (fetch_ultimo mariaStore "Maria" = Except.ok none ↔
      [mariaRow2, mariaRow1] = ([] : List Row)) :=
  ⟨by decide, (C9_latest_head_history mariaStore "Maria").2 [mariaRow2, mariaRow1] (by decide)⟩

/-- C10: passing an empty string for desde, hasta or turno yields exactly the
result of omitting that filter. -/
theorem C10_empty_filters (db : Store) (adulto : String) (d h t : Option String) :
    fetch_historial db adulto (some "") h t = fetch_historial db adulto none h t ∧
    fetch_historial db adulto d (some "") t = fetch_historial db adulto d none t ∧
    fetch_historial db adulto d h (some "") = fetch_historial db adulto d h none := by
  have he : ("" : String).isEmpty = true := rfl
  have p1 : historialPred adulto (some "") h t = historialPred adulto none h t := by
    funext r
    simp [historialPred, he]
  have p2 : historialPred adulto d (some "") t = historialPred adulto d none t := by
    funext r
    simp [historialPred, he]
  have p3 : historialPred adulto d h (some "") = historialPred adulto d h none := by
    funext r
    simp [historialPred, he]
  refine ⟨?_, ?_, ?_⟩ <;> unfold fetch_historial
  · rw [p1]
  · rw [p2]
  · rw [p3]
